import Mathlib

/-
Shallow embedding of meinside/telegram-bot-ngrok (src/main.go).

The program is a Telegram bot that launches/terminates a single ngrok
process.  External effects (process spawn, process wait, HTTP status
query, Telegram API calls) are modelled by explicit environments that
supply the outcome of each effect, and by explicit event / effect
traces recorded by the embedded functions:
  - `Ev` records process-lifecycle effects (exec.Command creation,
    Process.Kill, cmd.Wait, a successful cmd.Start, one tunnels-status
    query);
  - `OutEff` records outbound Telegram API calls (SendChatAction,
    SendMessage, AnswerCallbackQuery, EditMessageText).
The package-level `cmd *exec.Cmd` variable is the `cmd` field of
`PCState`; an `exec.Cmd` value is modelled by `Cmd`, carrying a fresh
identifier (allocated from `PCState.nextPid`) and whether `Start`
succeeded on it.  Since `launchNgrok` and `shutdownNgrok` both run
under the single mutex `lock`, their calls are serialised; a whole
execution is a sequence of operations (`runOps`).
-/

/-! ### Constants (src/main.go lines 22-53) -/

def commandStart : String := "/start"

def commandLaunchNgrok : String := "/launch"

def commandShutdownNgrok : String := "/shutdown"

def commandCancel : String := "/cancel"

def messageDefault : String := "Welcome!"

def messageUnknownCommand : String := "Unknown command."

def messageNoTunnels : String := "No tunnels available."

def messageNoConfiguredTunnels : String := "No tunnels configured."

def messageWhatToLaunch : String := "Which tunnel do you want to launch?"

def messageCancel : String := "Cancel"

def messageCanceled : String := "Canceled."

def messageLaunchFailed : String := "Launch failed."

def messageShutdownSuccessfully : String := "Shutdown successfully."

/-! ### Data model -/

/-- `strings.HasPrefix(s, p)` from the Go standard library. -/
def strHasPre (s p : String) : Bool :=
  p.data.isPrefixOf s.data

/-- A tunnel descriptor from the ngrok client API (src/main.go lines 100-107);
only the fields the program reads are used by the embedding. -/
structure NgrokTunnel where
  name : String
  uri : String
  publicUrl : String
  proto : String
deriving Repr, DecidableEq

/-- The ngrok client API response (src/main.go lines 95-98). -/
structure NgrokTunnels where
  tunnels : List NgrokTunnel
  uri : String
deriving Repr, DecidableEq

/-- A value of Go type `*exec.Cmd` as far as the program observes it:
a fresh identity for the underlying process, and whether `Start`
succeeded on it (`cmd.Process` is non-nil exactly when it did). -/
structure Cmd where
  pid : Nat
  started : Bool
deriving Repr, DecidableEq

/-- The mutable state guarded by `lock`: the package-level
`cmd *exec.Cmd` variable (src/main.go line 110), `none` standing for
nil, plus a counter for allocating fresh process identities. -/
structure PCState where
  cmd : Option Cmd
  nextPid : Nat
deriving Repr, DecidableEq

def initState : PCState := { cmd := none, nextPid := 0 }

/-- Process-lifecycle effects, in program order. -/
inductive Ev where
  | killed (pid : Nat)
  | waited (pid : Nat)
  | command (pid : Nat) (params : List String)
  | spawned (pid : Nat)
  | status
deriving Repr, DecidableEq

/-- Outcomes of the external effects one `launchNgrok` call performs:
the error of `cmd.Start()` if it fails, and the result of the one
`tunnelsStatus()` query (the HTTP GET + JSON parse of src/main.go
lines 141-168, abstracted to its result). -/
structure LaunchEnv where
  startErr : Option String
  statusResult : Except String NgrokTunnels
deriving Repr

/-- Outcome of the `cmd.Wait()` call one `shutdownNgrok` call performs. -/
structure ShutdownEnv where
  waitErr : Option String
deriving Repr, DecidableEq

/-- `isAvailableId` (src/main.go lines 131-138). -/
def isAvailableId (availableIds : List String) (id : String) : Bool :=
  match availableIds with
  | [] => false
  | v :: rest => if v = id then true else isAvailableId rest id

/-- Go map lookup `tunnelParams[txt]` on the configured profile map,
modelled as an association list (keys unique in any real config). -/
def lookupParam (tunnelParams : List (String × String)) (key : String) : Option String :=
  match tunnelParams with
  | [] => none
  | (k, v) :: rest => if k = key then some v else lookupParam rest key

/-- The status-formatting loop of `launchNgrok` (src/main.go lines
195-198): `status += fmt.Sprintf("▸ %s\n    %s\n", name, publicUrl)`. -/
def formatTunnels (acc : String) : List NgrokTunnel → String
  | [] => acc
  | t :: ts => formatTunnels (acc ++ "▸ " ++ t.name ++ "\n    " ++ t.publicUrl ++ "\n") ts

/-! ### Process Controller -/

/-- `launchNgrok` (src/main.go lines 171-209).  Under the lock:
kill+wait any existing `cmd`; create the new `exec.Cmd` (this
assignment happens before `Start`, so the new handle is retained even
when `Start` fails); on successful `Start`, sleep the settle delay and
query `tunnelsStatus` once.  Returns (new state, lifecycle events,
message, success). -/
def launchNgrok (env : LaunchEnv) (params : List String) (st : PCState) :
    PCState × List Ev × String × Bool :=
  let prevEvs : List Ev :=
    match st.cmd with
    | some c => [Ev.killed c.pid, Ev.waited c.pid]
    | none => []
  let newPid : Nat := st.nextPid
  match env.startErr with
  | none =>
    let stRun : PCState := { cmd := some { pid := newPid, started := true }, nextPid := newPid + 1 }
    let evs : List Ev := prevEvs ++ [Ev.command newPid params, Ev.spawned newPid, Ev.status]
    match env.statusResult with
    | Except.ok tunnels =>
      let status := formatTunnels "" tunnels.tunnels
      let status := if status.length ≤ 0 then messageNoTunnels else status
      (stRun, evs, status, true)
    | Except.error e =>
      (stRun, evs, "Failed to get tunnels status: " ++ e, false)
  | some e =>
    let stNew : PCState := { cmd := some { pid := newPid, started := false }, nextPid := newPid + 1 }
    (stNew, prevEvs ++ [Ev.command newPid params], "Failed to launch: " ++ e, false)

/-- `shutdownNgrok` (src/main.go lines 212-238).  Under the lock: if
`cmd` is nil, fail with `fmt.Sprintf(messageShutdownFailedFormat, "no
running process")`; otherwise kill+wait, clear `cmd`, and report
success (a wait error is folded into the success text). -/
def shutdownNgrok (env : ShutdownEnv) (st : PCState) :
    PCState × List Ev × String × Bool :=
  match st.cmd with
  | none =>
    (st, [], "Failed to shutdown: " ++ "no running process", false)
  | some c =>
    let msg :=
      match env.waitErr with
      | none => messageShutdownSuccessfully
      | some e => "Shutdown successfully. (" ++ e ++ ")"
    ({ st with cmd := none }, [Ev.killed c.pid, Ev.waited c.pid], msg, true)

/-- Result projections. -/
def resState (r : PCState × List Ev × String × Bool) : PCState := r.1

def resEvs (r : PCState × List Ev × String × Bool) : List Ev := r.2.1

def resMsg (r : PCState × List Ev × String × Bool) : String := r.2.2.1

def resOk (r : PCState × List Ev × String × Bool) : Bool := r.2.2.2

/-! ### Serialised executions -/

/-- One serialised Process Controller operation together with the
outcomes of the external effects it performs. -/
inductive Op where
  | launch (env : LaunchEnv) (params : List String)
  | shutdown (env : ShutdownEnv)

/-- Run a sequence of operations (the order in which the calls acquire
`lock`), accumulating the lifecycle-event trace. -/
def runOps (st : PCState) : List Op → PCState × List Ev
  | [] => (st, [])
  | Op.launch env params :: rest =>
    let r := launchNgrok env params st
    let r2 := runOps (resState r) rest
    (r2.1, resEvs r ++ r2.2)
  | Op.shutdown env :: rest =>
    let r := shutdownNgrok env st
    let r2 := runOps (resState r) rest
    (r2.1, resEvs r ++ r2.2)

/-! ### Conversation Router -/

structure Chat where
  id : Int
deriving Repr, DecidableEq

/-- Telegram user; `username` is `*string` in the library. -/
structure User where
  username : Option String
  firstName : String
deriving Repr, DecidableEq

structure Message where
  fromUser : User
  chat : Chat
  messageID : Int
  text : Option String
deriving Repr, DecidableEq

structure CallbackQuery where
  id : String
  fromUser : User
  message : Message
  data : String
deriving Repr, DecidableEq

/-- An inline keyboard button: display text and callback data. -/
structure InlineKeyboardButton where
  text : String
  callbackData : Option String
deriving Repr, DecidableEq

/-- The `reply_markup` option attached to an outbound `SendMessage`. -/
inductive Markup where
  | replyKeyboard (rows : List (List String))
  | inlineKeyboard (buttons : List (List InlineKeyboardButton))
deriving Repr, DecidableEq

/-- `allKeyboards` (src/main.go lines 90-92): the persistent two-button
reply keyboard. -/
def allKeyboards : List (List String) := [[commandLaunchNgrok, commandShutdownNgrok]]

/-- Outbound Telegram API calls, in the order the program issues them. -/
inductive OutEff where
  | chatAction (chatId : Int)
  | sendMessage (chatId : Int) (text : String) (markup : Markup)
  | answerCallback (queryId : String) (text : Option String)
  | editMessage (chatId : Int) (messageId : Int) (text : String)
deriving Repr, DecidableEq

/-- Outcomes of the Telegram API calls a `processUpdate` call performs,
plus the environment of the `shutdownNgrok` call it may make. -/
structure UpdateEnv where
  sendOk : Bool
  shutdownEnv : ShutdownEnv
deriving Repr

/-- Outcomes of the Telegram API calls a `processCallbackQuery` call
performs, plus the environment of the `launchNgrok` call it may make. -/
structure CallbackEnv where
  launchEnv : LaunchEnv
  answerOk : Bool
  editOk : Bool
deriving Repr

/-- `processUpdate` (src/main.go lines 241-333): gate on the sender's
username against the allow-list, then route on the text by prefix and
send one message (whose `reply_markup` is the persistent keyboard
unless overridden by the inline launch menu).  Returns (new controller
state, lifecycle events, outbound effects, result). -/
def processUpdate (availableIds : List String) (tunnelParams : List (String × String))
    (env : UpdateEnv) (st : PCState) (message : Message) :
    PCState × List Ev × List OutEff × Bool :=
  match message.fromUser.username with
  | none => (st, [], [], false)
  | some userId =>
    if isAvailableId availableIds userId then
      let txt := match message.text with
        | some t => t
        | none => ""
      let routed : PCState × List Ev × String × Markup :=
        if strHasPre txt commandStart then
          (st, [], messageDefault, Markup.replyKeyboard allKeyboards)
        else if strHasPre txt commandLaunchNgrok then
          if tunnelParams.length > 0 then
            let buttons :=
              tunnelParams.map (fun kv => [InlineKeyboardButton.mk kv.1 (some kv.1)]) ++
                [[InlineKeyboardButton.mk messageCancel (some commandCancel)]]
            (st, [], messageWhatToLaunch, Markup.inlineKeyboard buttons)
          else
            (st, [], messageNoConfiguredTunnels, Markup.replyKeyboard allKeyboards)
        else if strHasPre txt commandShutdownNgrok then
          let r := shutdownNgrok env.shutdownEnv st
          (resState r, resEvs r, resMsg r, Markup.replyKeyboard allKeyboards)
        else
          (st, [],
            if txt.length > 0 then txt ++ ": " ++ messageUnknownCommand else messageUnknownCommand,
            Markup.replyKeyboard allKeyboards)
      (routed.1, routed.2.1,
        [OutEff.chatAction message.chat.id,
         OutEff.sendMessage message.chat.id routed.2.2.1 routed.2.2.2],
        env.sendOk)
    else
      (st, [], [], false)

/-- The answer/edit tail of `processCallbackQuery` (src/main.go lines
367-393): answer the callback query (with a toast only when a launch
message exists), and if that succeeded edit the original message —
which clears its inline keyboard — to the launch report or
`messageCanceled`. -/
def answerAndEdit (env : CallbackEnv) (query : CallbackQuery)
    (message : String) (txt : String) (launchSuccessful : Bool) : List OutEff × Bool :=
  let answerText : Option String :=
    if message.length > 0 then
      some (if launchSuccessful then "Launched successfully: " ++ txt else messageLaunchFailed)
    else
      none
  if env.answerOk then
    let finalMsg := if message.length ≤ 0 then messageCanceled else message
    ([OutEff.answerCallback query.id answerText,
      OutEff.editMessage query.message.chat.id query.message.messageID finalMsg],
     env.answerOk && env.editOk)
  else
    ([OutEff.answerCallback query.id answerText], false)

/-- `processCallbackQuery` (src/main.go lines 336-396): no identity
gate; a `/cancel`-prefixed token short-circuits to the cancel reply;
otherwise the token is looked up among the configured profiles and, if
found, its value is split on spaces and `launchNgrok` is invoked
(unknown tokens, and a hypothetical empty split, are dropped after the
typing indicator with no reply). -/
def processCallbackQuery (tunnelParams : List (String × String))
    (env : CallbackEnv) (st : PCState) (query : CallbackQuery) :
    PCState × List Ev × List OutEff × Bool :=
  let txt := query.data
  let typing := [OutEff.chatAction query.message.chat.id]
  if strHasPre txt commandCancel then
    let tail := answerAndEdit env query "" txt false
    (st, [], typing ++ tail.1, tail.2)
  else
    match lookupParam tunnelParams txt with
    | some paramStr =>
      let params := paramStr.splitOn " "
      if params.length > 0 then
        let r := launchNgrok env.launchEnv params st
        let tail := answerAndEdit env query (resMsg r) txt (resOk r)
        (resState r, resEvs r, typing ++ tail.1, tail.2)
      else
        (st, [], typing, false)
    | none =>
      (st, [], typing, false)

/-! ### The lifecycle-trace machinery for the exclusivity claim -/

/-- Scan a lifecycle trace, tracking which started process (if any) is
live; `none` as a result means two started processes were live at
once.  A `waited p` on the live process reaps it. -/
def tracePend : Option Nat → List Ev → Option (Option Nat)
  | pend, [] => some pend
  | pend, Ev.killed _ :: rest => tracePend pend rest
  | pend, Ev.command _ _ :: rest => tracePend pend rest
  | pend, Ev.status :: rest => tracePend pend rest
  | pend, Ev.spawned p :: rest =>
    match pend with
    | none => tracePend (some p) rest
    | some _ => none
  | pend, Ev.waited p :: rest =>
    match pend with
    | some q => tracePend (if p = q then none else some q) rest
    | none => tracePend none rest

def isWaitedFor (p : Nat) : Ev → Bool
  | Ev.waited q => q == p
  | _ => false

/-- Number of `waited p` events in a trace. -/
def countWaited (tr : List Ev) (p : Nat) : Nat := tr.countP (isWaitedFor p)

def isStatusEv : Ev → Bool
  | Ev.status => true
  | _ => false

/-- Number of tunnels-status queries in a trace. -/
def countStatus (tr : List Ev) : Nat := tr.countP isStatusEv

/-- Every pid an event mentions is below `n`. -/
def evBound (n : Nat) : Ev → Prop
  | Ev.killed p => p < n
  | Ev.waited p => p < n
  | Ev.command p _ => p < n
  | Ev.spawned p => p < n
  | Ev.status => True

/-- The live process tracked by `tracePend` for a controller state. -/
def pendingOf (st : PCState) : Option Nat :=
  match st.cmd with
  | some c => if c.started then some c.pid else none
  | none => none

/-- Invariant tying a controller state to the trace that produced it. -/
def TraceInv (st : PCState) (tr : List Ev) : Prop :=
  tracePend none tr = some (pendingOf st)
  ∧ (∀ e ∈ tr, evBound st.nextPid e)
  ∧ (∀ c, st.cmd = some c → c.pid < st.nextPid)
  ∧ (∀ c, st.cmd = some c → c.started = false → Ev.spawned c.pid ∉ tr)
  ∧ (∀ p, Ev.spawned p ∈ tr →
      countWaited tr p = if pendingOf st = some p then 0 else 1)

/-! ### Helper lemmas -/

theorem tracePend_append (t1 t2 : List Ev) (pend : Option Nat) :
    tracePend pend (t1 ++ t2) = (tracePend pend t1).bind (fun q => tracePend q t2) := by
  induction t1 generalizing pend with
  | nil => simp [tracePend]
  | cons e rest ih =>
    cases e with
    | killed p => simpa [tracePend] using ih pend
    | command p ps => simpa [tracePend] using ih pend
    | status => simpa [tracePend] using ih pend
    | spawned p =>
      cases pend with
      | none => simpa [tracePend] using ih (some p)
      | some q => simp [tracePend]
    | waited p =>
      cases pend with
      | none => simpa [tracePend] using ih none
      | some q => simpa [tracePend] using ih (if p = q then none else some q)

theorem countWaited_append (t1 t2 : List Ev) (p : Nat) :
    countWaited (t1 ++ t2) p = countWaited t1 p + countWaited t2 p := by
  simp [countWaited, List.countP_append]

theorem countWaited_zero_of_bound (tr : List Ev) (n : Nat)
    (h : ∀ e ∈ tr, evBound n e) : countWaited tr n = 0 := by
  induction tr with
  | nil => simp [countWaited]
  | cons e rest ih =>
    have hrest : countWaited rest n = 0 := ih (fun e he => h e (List.mem_cons_of_mem _ he))
    have he : evBound n e := h e (List.mem_cons_self _ _)
    cases e with
    | waited q =>
      have hq : q < n := he
      have : (q == n) = false := by
        simp only [beq_eq_false_iff_ne]
        omega
      simp [countWaited, List.countP_cons, isWaitedFor, this] at hrest ⊢
      exact hrest
    | killed q => simpa [countWaited, List.countP_cons, isWaitedFor] using hrest
    | command q ps => simpa [countWaited, List.countP_cons, isWaitedFor] using hrest
    | spawned q => simpa [countWaited, List.countP_cons, isWaitedFor] using hrest
    | status => simpa [countWaited, List.countP_cons, isWaitedFor] using hrest

theorem not_spawned_of_bound (tr : List Ev) (n : Nat)
    (h : ∀ e ∈ tr, evBound n e) : Ev.spawned n ∉ tr := by
  intro hmem
  have := h _ hmem
  simp [evBound] at this

theorem evBound_mono {n m : Nat} (hnm : n ≤ m) {e : Ev} (h : evBound n e) : evBound m e := by
  cases e <;> simp [evBound] at h ⊢ <;> omega

/-- Uniform description of the state and events produced by one
`launchNgrok` call (the message and success flag are the only parts
that depend on the status-query result). -/
theorem launch_result_shape (env : LaunchEnv) (params : List String) (st : PCState) :
    resState (launchNgrok env params st) =
      { cmd := some { pid := st.nextPid, started := env.startErr.isNone },
        nextPid := st.nextPid + 1 }
    ∧ resEvs (launchNgrok env params st) =
      (match st.cmd with
       | some c => [Ev.killed c.pid, Ev.waited c.pid]
       | none => []) ++
        (Ev.command st.nextPid params ::
          (if env.startErr.isNone then [Ev.spawned st.nextPid, Ev.status] else [])) := by
  obtain ⟨se, sr⟩ := env
  cases se <;> cases sr <;> exact ⟨rfl, rfl⟩

theorem traceInv_launch (env : LaunchEnv) (params : List String) (st : PCState) (tr : List Ev)
    (h : TraceInv st tr) :
    TraceInv (resState (launchNgrok env params st)) (tr ++ resEvs (launchNgrok env params st)) := by
  obtain ⟨h1, h2, h3, h4, h5⟩ := h
  obtain ⟨hstate, hevs⟩ := launch_result_shape env params st
  rw [hstate, hevs]
  rcases hcmd : st.cmd with _ | c
  case none =>
    cases hb : env.startErr.isNone
    case false =>
      refine ⟨?_, ?_, ?_, ?_, ?_⟩
      · rw [tracePend_append, h1]
        simp [pendingOf, hcmd, tracePend]
      · intro e he
        rcases List.mem_append.1 he with he | he
        · exact evBound_mono (Nat.le_succ _) (h2 e he)
        · simp at he
          subst he
          simp [evBound]
      · intro c' hc'
        simp at hc'
        simp [← hc']
      · intro c' hc' hns
        simp at hc'
        rw [← hc']
        intro hmem
        rcases List.mem_append.1 hmem with hmem | hmem
        · exact not_spawned_of_bound tr st.nextPid h2 hmem
        · simp at hmem
      · intro p hp
        rcases List.mem_append.1 hp with hp | hp
        · have hpn : p < st.nextPid := h2 _ hp
          have hcnt := h5 p hp
          rw [countWaited_append]
          simp [pendingOf, hcmd, countWaited] at hcnt
          simp [pendingOf, countWaited, List.countP_cons, isWaitedFor, hcnt]
        · simp at hp
    case true =>
      refine ⟨?_, ?_, ?_, ?_, ?_⟩
      · rw [tracePend_append, h1]
        simp [pendingOf, hcmd, tracePend]
      · intro e he
        rcases List.mem_append.1 he with he | he
        · exact evBound_mono (Nat.le_succ _) (h2 e he)
        · simp at he
          rcases he with he | he | he <;> subst he <;> simp [evBound]
      · intro c' hc'
        simp at hc'
        simp [← hc']
      · intro c' hc' hns
        simp at hc'
        rw [← hc'] at hns
        simp at hns
      · intro p hp
        rcases List.mem_append.1 hp with hp | hp
        · have hpn : p < st.nextPid := h2 _ hp
          have hcnt := h5 p hp
          rw [countWaited_append]
          simp [pendingOf, hcmd, countWaited] at hcnt
          have hne : ¬ st.nextPid = p := by omega
          simp [pendingOf, countWaited, List.countP_cons, isWaitedFor, hcnt, hne]
        · simp at hp
          subst hp
          rw [countWaited_append, countWaited_zero_of_bound tr st.nextPid h2]
          simp [pendingOf, countWaited, List.countP_cons, isWaitedFor]
  case some =>
    have hcpid : c.pid < st.nextPid := h3 c hcmd
    cases hb : env.startErr.isNone
    case false =>
      refine ⟨?_, ?_, ?_, ?_, ?_⟩
      · rw [tracePend_append, h1]
        rcases hstart : c.started
        · simp [pendingOf, hcmd, hstart, tracePend]
        · simp [pendingOf, hcmd, hstart, tracePend]
      · intro e he
        rcases List.mem_append.1 he with he | he
        · exact evBound_mono (Nat.le_succ _) (h2 e he)
        · simp at he
          rcases he with he | he | he <;> subst he <;> simp [evBound] <;> omega
      · intro c' hc'
        simp at hc'
        simp [← hc']
      · intro c' hc' hns
        simp at hc'
        rw [← hc']
        intro hmem
        rcases List.mem_append.1 hmem with hmem | hmem
        · exact not_spawned_of_bound tr st.nextPid h2 hmem
        · simp at hmem
      · intro p hp
        rcases List.mem_append.1 hp with hp | hp
        · have hpn : p < st.nextPid := h2 _ hp
          have hcnt := h5 p hp
          rw [countWaited_append]
          rcases hstart : c.started
          · have hcp : ¬ (c.pid = p) := by
              intro hcp
              exact h4 c hcmd hstart (hcp ▸ hp)
            have hcpb : (c.pid == p) = false := by
              simp [hcp]
            simp [pendingOf, hcmd, hstart, countWaited] at hcnt
            simp [pendingOf, countWaited, List.countP_cons, isWaitedFor, hcnt, hcpb]
          · simp [pendingOf, hcmd, hstart, countWaited] at hcnt
            by_cases hcp : c.pid = p
            · rw [if_pos (by rw [hcp])] at hcnt
              have hcpb : (c.pid == p) = true := by
                simp [hcp]
              simp [pendingOf, countWaited, List.countP_cons, isWaitedFor, hcnt, hcpb]
            · rw [if_neg (by simp [hcp])] at hcnt
              have hcpb : (c.pid == p) = false := by
                simp [hcp]
              simp [pendingOf, countWaited, List.countP_cons, isWaitedFor, hcnt, hcpb]
        · simp at hp
    case true =>
      refine ⟨?_, ?_, ?_, ?_, ?_⟩
      · rw [tracePend_append, h1]
        rcases hstart : c.started
        · simp [pendingOf, hcmd, hstart, tracePend]
        · simp [pendingOf, hcmd, hstart, tracePend]
      · intro e he
        rcases List.mem_append.1 he with he | he
        · exact evBound_mono (Nat.le_succ _) (h2 e he)
        · simp at he
          rcases he with he | he | he | he | he <;> subst he <;> simp [evBound] <;> omega
      · intro c' hc'
        simp at hc'
        simp [← hc']
      · intro c' hc' hns
        simp at hc'
        rw [← hc'] at hns
        simp at hns
      · intro p hp
        rcases List.mem_append.1 hp with hp | hp
        · have hpn : p < st.nextPid := h2 _ hp
          have hcnt := h5 p hp
          have hne : ¬ st.nextPid = p := by omega
          rw [countWaited_append]
          rcases hstart : c.started
          · have hcp : ¬ (c.pid = p) := by
              intro hcp
              exact h4 c hcmd hstart (hcp ▸ hp)
            have hcpb : (c.pid == p) = false := by
              simp [hcp]
            simp [pendingOf, hcmd, hstart, countWaited] at hcnt
            simp [pendingOf, countWaited, List.countP_cons, isWaitedFor, hcnt, hcpb, hne]
          · simp [pendingOf, hcmd, hstart, countWaited] at hcnt
            by_cases hcp : c.pid = p
            · rw [if_pos (by rw [hcp])] at hcnt
              have hcpb : (c.pid == p) = true := by
                simp [hcp]
              simp [pendingOf, countWaited, List.countP_cons, isWaitedFor, hcnt, hcpb, hne]
            · rw [if_neg (by simp [hcp])] at hcnt
              have hcpb : (c.pid == p) = false := by
                simp [hcp]
              simp [pendingOf, countWaited, List.countP_cons, isWaitedFor, hcnt, hcpb, hne]
        · simp at hp
          subst hp
          rw [countWaited_append, countWaited_zero_of_bound tr st.nextPid h2]
          have hcpb : (c.pid == st.nextPid) = false := by
            simp
            omega
          simp [pendingOf, countWaited, List.countP_cons, isWaitedFor, hcpb]

/-- Uniform description of the state and events produced by one
`shutdownNgrok` call. -/
theorem shutdown_result_shape (env : ShutdownEnv) (st : PCState) :
    resState (shutdownNgrok env st) =
      (match st.cmd with
       | none => st
       | some _ => { st with cmd := none })
    ∧ resEvs (shutdownNgrok env st) =
      (match st.cmd with
       | none => []
       | some c => [Ev.killed c.pid, Ev.waited c.pid]) := by
  obtain ⟨cm, n⟩ := st
  obtain ⟨we⟩ := env
  cases cm <;> cases we <;> exact ⟨rfl, rfl⟩

theorem traceInv_shutdown (env : ShutdownEnv) (st : PCState) (tr : List Ev)
    (h : TraceInv st tr) :
    TraceInv (resState (shutdownNgrok env st)) (tr ++ resEvs (shutdownNgrok env st)) := by
  obtain ⟨h1, h2, h3, h4, h5⟩ := h
  obtain ⟨hstate, hevs⟩ := shutdown_result_shape env st
  rw [hstate, hevs]
  rcases hcmd : st.cmd with _ | c
  · simpa using ⟨h1, h2, h3, h4, h5⟩
  · refine ⟨?_, ?_, ?_, ?_, ?_⟩
    · rw [tracePend_append, h1]
      rcases hstart : c.started
      · simp [pendingOf, hcmd, hstart, tracePend]
      · simp [pendingOf, hcmd, hstart, tracePend]
    · intro e he
      rcases List.mem_append.1 he with he | he
      · exact h2 e he
      · have hcpid := h3 c hcmd
        simp at he
        rcases he with he | he <;> subst he <;> simp [evBound] <;> omega
    · intro c' hc'
      simp at hc'
    · intro c' hc' hns
      simp at hc'
    · intro p hp
      have hptr : Ev.spawned p ∈ tr := by
        rcases List.mem_append.1 hp with hp | hp
        · exact hp
        · simp at hp
      have hcnt := h5 p hptr
      rw [countWaited_append]
      rcases hstart : c.started
      · have hcp : ¬ (c.pid = p) := fun hcp => h4 c hcmd hstart (hcp ▸ hptr)
        have hcpb : (c.pid == p) = false := by
          simp [hcp]
        simp [pendingOf, hcmd, hstart, countWaited] at hcnt
        simp [pendingOf, countWaited, List.countP_cons, isWaitedFor, hcnt, hcpb]
      · simp [pendingOf, hcmd, hstart, countWaited] at hcnt
        by_cases hcp : c.pid = p
        · rw [if_pos (by rw [hcp])] at hcnt
          have hcpb : (c.pid == p) = true := by
            simp [hcp]
          simp [pendingOf, countWaited, List.countP_cons, isWaitedFor, hcnt, hcpb]
        · rw [if_neg (by simp [hcp])] at hcnt
          have hcpb : (c.pid == p) = false := by
            simp [hcp]
          simp [pendingOf, countWaited, List.countP_cons, isWaitedFor, hcnt, hcpb]

theorem traceInv_init : TraceInv initState [] := by
  refine ⟨rfl, ?_, ?_, ?_, ?_⟩
  · intro e he
    simp at he
  · intro c hc
    simp [initState] at hc
  · intro c hc
    simp [initState] at hc
  · intro p hp
    simp at hp

theorem traceInv_runOps (ops : List Op) (st : PCState) (tr : List Ev)
    (h : TraceInv st tr) :
    TraceInv (runOps st ops).1 (tr ++ (runOps st ops).2) := by
  induction ops generalizing st tr with
  | nil => simpa [runOps] using h
  | cons op rest ih =>
    cases op with
    | launch env params =>
      have hstep := traceInv_launch env params st tr h
      have hrest := ih (resState (launchNgrok env params st)) _ hstep
      simpa [runOps, List.append_assoc] using hrest
    | shutdown env =>
      have hstep := traceInv_shutdown env st tr h
      have hrest := ih (resState (shutdownNgrok env st)) _ hstep
      simpa [runOps, List.append_assoc] using hrest

theorem formatTunnels_length_le (ts : List NgrokTunnel) (acc : String) :
    acc.length ≤ (formatTunnels acc ts).length := by
  induction ts generalizing acc with
  | nil => simp [formatTunnels]
  | cons t rest ih =>
    refine le_trans ?_ (ih (acc ++ "▸ " ++ t.name ++ "\n    " ++ t.publicUrl ++ "\n"))
    simp only [String.length_append]
    omega

theorem formatTunnels_cons_pos (t : NgrokTunnel) (ts : List NgrokTunnel) (acc : String) :
    0 < (formatTunnels acc (t :: ts)).length := by
  have h := formatTunnels_length_le ts (acc ++ "▸ " ++ t.name ++ "\n    " ++ t.publicUrl ++ "\n")
  have h2 : 0 < (acc ++ "▸ " ++ t.name ++ "\n    " ++ t.publicUrl ++ "\n").length := by
    have hb : 0 < "▸ ".length := by decide
    simp only [String.length_append]
    omega
  calc 0 < (acc ++ "▸ " ++ t.name ++ "\n    " ++ t.publicUrl ++ "\n").length := h2
    _ ≤ (formatTunnels acc (t :: ts)).length := h

/-- The message a `launchNgrok` call returns is never empty (so the
callback handler always sets a toast for a launch). -/
theorem launch_msg_pos (env : LaunchEnv) (params : List String) (st : PCState) :
    0 < (resMsg (launchNgrok env params st)).length := by
  obtain ⟨se, sr⟩ := env
  cases se with
  | some e =>
    show 0 < ("Failed to launch: " ++ e).length
    have hb : 0 < "Failed to launch: ".length := by decide
    simp only [String.length_append]
    omega
  | none =>
    cases sr with
    | error e =>
      show 0 < ("Failed to get tunnels status: " ++ e).length
      have hb : 0 < "Failed to get tunnels status: ".length := by decide
      simp only [String.length_append]
      omega
    | ok tunnels =>
      show 0 < (if (formatTunnels "" tunnels.tunnels).length ≤ 0 then messageNoTunnels
        else formatTunnels "" tunnels.tunnels).length
      by_cases hc : (formatTunnels "" tunnels.tunnels).length ≤ 0
      · rw [if_pos hc]
        decide
      · rw [if_neg hc]
        omega

theorem strHasPre_append_self (p s : String) : strHasPre (p ++ s) p = true := by
  rw [strHasPre, String.data_append, List.isPrefixOf_iff_prefix]
  exact List.prefix_append p.data s.data

theorem strHasPre_launch_not_start (s : String) :
    strHasPre (commandLaunchNgrok ++ s) commandStart = false := by
  rw [strHasPre, String.data_append]
  have h1 : commandStart.data = ['/', 's', 't', 'a', 'r', 't'] := rfl
  have h2 : commandLaunchNgrok.data = ['/', 'l', 'a', 'u', 'n', 'c', 'h'] := rfl
  rw [h1, h2]
  simp [List.isPrefixOf]

theorem strHasPre_shutdown_not_start (s : String) :
    strHasPre (commandShutdownNgrok ++ s) commandStart = false := by
  rw [strHasPre, String.data_append]
  have h1 : commandStart.data = ['/', 's', 't', 'a', 'r', 't'] := rfl
  have h2 : commandShutdownNgrok.data = ['/', 's', 'h', 'u', 't', 'd', 'o', 'w', 'n'] := rfl
  rw [h1, h2]
  simp [List.isPrefixOf]

theorem strHasPre_shutdown_not_launch (s : String) :
    strHasPre (commandShutdownNgrok ++ s) commandLaunchNgrok = false := by
  rw [strHasPre, String.data_append]
  have h1 : commandLaunchNgrok.data = ['/', 'l', 'a', 'u', 'n', 'c', 'h'] := rfl
  have h2 : commandShutdownNgrok.data = ['/', 's', 'h', 'u', 't', 'd', 'o', 'w', 'n'] := rfl
  rw [h1, h2]
  simp [List.isPrefixOf]

theorem splitOnAux_ne_nil (s sep : String) (b i j : String.Pos) (r : List String) :
    String.splitOnAux s sep b i j r ≠ [] := by
  induction b, i, j, r using String.splitOnAux.induct s sep with
  | case1 b i j r h =>
    rw [String.splitOnAux, if_pos h]
    simp
  | case2 b i j r h1 h2 i1 j1 h3 ih =>
    rw [String.splitOnAux, if_neg h1, if_pos h2]
    show ¬ (if sep.atEnd j1 = true then _ else _) = []
    rw [if_pos h3]
    exact ih
  | case3 b i j r h1 h2 i1 j1 h3 ih =>
    rw [String.splitOnAux, if_neg h1, if_pos h2]
    show ¬ (if sep.atEnd j1 = true then _ else _) = []
    rw [if_neg h3]
    exact ih
  | case4 b i j r h1 h2 ih =>
    rw [String.splitOnAux, if_neg h1, if_neg h2]
    exact ih

/-- `strings.Split` (and so `String.splitOn`) never returns an empty
list: splitting the empty string still yields `[""]`. -/
theorem splitOn_ne_nil (s sep : String) : s.splitOn sep ≠ [] := by
  rw [String.splitOn]
  by_cases h : sep == ""
  · rw [if_pos h]
    simp
  · rw [if_neg h]
    exact splitOnAux_ne_nil s sep 0 0 0 []

/-! ### Router result projections and shared sample fixtures -/

def effState (r : PCState × List Ev × List OutEff × Bool) : PCState := r.1

def effEvs (r : PCState × List Ev × List OutEff × Bool) : List Ev := r.2.1

def effOut (r : PCState × List Ev × List OutEff × Bool) : List OutEff := r.2.2.1

def effRes (r : PCState × List Ev × List OutEff × Bool) : Bool := r.2.2.2

def sampleShutdownEnv : ShutdownEnv := { waitErr := none }

def sampleLaunchEnv : LaunchEnv :=
  { startErr := none, statusResult := Except.ok { tunnels := [], uri := "" } }

def sampleUpdateEnv : UpdateEnv := { sendOk := true, shutdownEnv := sampleShutdownEnv }

def sampleCallbackEnv : CallbackEnv :=
  { launchEnv := sampleLaunchEnv, answerOk := true, editOk := true }

/-- The message a bot keyboard is attached to, as the callback queries
reference it. -/
def sampleBotMessage : Message :=
  { fromUser := { username := some "bot", firstName := "B" },
    chat := { id := 1 }, messageID := 2, text := none }

/-! ### Claim theorems -/

/-- C1: the claim says a failed spawn transitions the controller back
to Idle (no handle retained) so that an immediately following Shutdown
reports the nothing-to-shut-down failure.  The code does not do this:
`cmd = exec.Command(...)` is assigned before `cmd.Start()`, so after a
failed `Start` the fresh unstarted handle is retained (`cmd != nil`),
and an immediately following `shutdownNgrok` takes the kill/wait
branch and returns success instead of the "no running process"
failure (in the real program it would also dereference the nil
`cmd.Process` in the kill goroutine). -/
theorem launch_spawn_failure_keeps_handle (e : String) (params : List String)
    (senv : ShutdownEnv) :
    resOk (launchNgrok { startErr := some e, statusResult := Except.error "" } params initState)
      = false
    ∧ resMsg (launchNgrok { startErr := some e, statusResult := Except.error "" } params initState)
      = "Failed to launch: " ++ e
    ∧ (resState (launchNgrok { startErr := some e, statusResult := Except.error "" } params
        initState)).cmd = some { pid := 0, started := false }
    ∧ resOk (shutdownNgrok senv
        (resState (launchNgrok { startErr := some e, statusResult := Except.error "" } params
          initState))) = true := by
  refine ⟨rfl, rfl, rfl, ?_⟩
  obtain ⟨we⟩ := senv
  cases we <;> rfl

/-- C2 counterexample: a callback event whose sender is not in the
allow-list is still given a full reply (typing indicator, callback
answer and message edit) — `processCallbackQuery` has no identity
gate, so the claim fails for button-callback events. -/
theorem unauthorized_callback_answered_cex :
    isAvailableId ["alice"] "mallory" = false
    ∧ effOut (processCallbackQuery [("web", "http 8080")] sampleCallbackEnv initState
        { id := "q1", fromUser := { username := some "mallory", firstName := "M" },
          message := sampleBotMessage, data := commandCancel }) =
      [OutEff.chatAction 1, OutEff.answerCallback "q1" none,
       OutEff.editMessage 1 2 messageCanceled] := by
  exact ⟨rfl, rfl⟩

/-- C2 amended: inbound TEXT messages are identity-gated — a missing
username or a username outside the allow-list produces no outbound
effect of any kind — but button-callback events are not gated at all:
`processCallbackQuery` never reads the sender, so it behaves
identically whatever identity the callback carries. -/
theorem identity_gate_text_only (ids : List String) (tp : List (String × String))
    (env : UpdateEnv) (st : PCState) (msg : Message) :
    (msg.fromUser.username = none → processUpdate ids tp env st msg = (st, [], [], false))
    ∧ (∀ u, msg.fromUser.username = some u → isAvailableId ids u = false →
        processUpdate ids tp env st msg = (st, [], [], false))
    ∧ (∀ (cenv : CallbackEnv) (q : CallbackQuery) (u : User),
        processCallbackQuery tp cenv st { q with fromUser := u } =
          processCallbackQuery tp cenv st q) := by
  refine ⟨?_, ?_, ?_⟩
  · intro h
    simp [processUpdate, h]
  · intro u hu hav
    simp [processUpdate, hu, hav]
  · intro cenv q u
    rfl

theorem identity_gate_text_only_witness :
    ({ fromUser := { username := some "mallory", firstName := "M" }, chat := { id := 1 },
        messageID := 2, text := some "/launch" } : Message).fromUser.username = some "mallory"
    ∧ isAvailableId ["alice"] "mallory" = false
    ∧ processUpdate ["alice"] [("web", "http 8080")] sampleUpdateEnv initState
        { fromUser := { username := some "mallory", firstName := "M" }, chat := { id := 1 },
          messageID := 2, text := some "/launch" } = (initState, [], [], false) :=
  ⟨rfl, by decide,
    (identity_gate_text_only ["alice"] [("web", "http 8080")] sampleUpdateEnv initState
      { fromUser := { username := some "mallory", firstName := "M" }, chat := { id := 1 },
        messageID := 2, text := some "/launch" }).2.1 "mallory" rfl (by decide)⟩

/-- C3: over every serialised sequence of Launch/Shutdown operations,
the lifecycle trace never has two started agent processes live at once
(`tracePend` succeeds), and every started process is waited on exactly
once — except the one still running at the end of the sequence, which
has not yet been waited on; moreover a Launch that finds an existing
handle kills and waits it before creating and starting the next
process. -/
theorem process_exclusive_reaped_once (ops : List Op) :
    ((tracePend none (runOps initState ops).2).isSome = true
      ∧ (∀ p, Ev.spawned p ∈ (runOps initState ops).2 →
          countWaited (runOps initState ops).2 p =
            if pendingOf (runOps initState ops).1 = some p then 0 else 1))
    ∧ (∀ (env : LaunchEnv) (params : List String) (c : Cmd) (n : Nat),
        resEvs (launchNgrok env params { cmd := some c, nextPid := n }) =
          Ev.killed c.pid :: Ev.waited c.pid :: Ev.command n params ::
            (if env.startErr.isNone then [Ev.spawned n, Ev.status] else [])) := by
  constructor
  · have h := traceInv_runOps ops initState [] traceInv_init
    obtain ⟨h1, _, _, _, h5⟩ := h
    simp only [List.nil_append] at h1 h5
    exact ⟨by rw [h1]; rfl, h5⟩
  · intro env params c n
    have h := (launch_result_shape env params { cmd := some c, nextPid := n }).2
    simpa using h

/-- C4: after a successful spawn, `launchNgrok` performs exactly one
status query; a successful query is a successful launch whose message
is the formatted endpoint list — the empty list giving the distinct
`messageNoTunnels` text, still with success — while a failed query
yields an unsuccessful status-fetch-failed result with the started
process handle retained (state Running). -/
theorem launch_status_query_once (env : LaunchEnv) (params : List String) (st : PCState)
    (h : env.startErr = none) :
    countStatus (resEvs (launchNgrok env params st)) = 1
    ∧ (∀ ts, env.statusResult = Except.ok ts →
        resOk (launchNgrok env params st) = true
        ∧ (ts.tunnels = [] → resMsg (launchNgrok env params st) = messageNoTunnels)
        ∧ (ts.tunnels ≠ [] →
            resMsg (launchNgrok env params st) = formatTunnels "" ts.tunnels))
    ∧ (∀ e, env.statusResult = Except.error e →
        resOk (launchNgrok env params st) = false
        ∧ resMsg (launchNgrok env params st) = "Failed to get tunnels status: " ++ e
        ∧ resState (launchNgrok env params st) =
            { cmd := some { pid := st.nextPid, started := true }, nextPid := st.nextPid + 1 }) := by
  obtain ⟨se, sr⟩ := env
  obtain rfl : se = none := h
  refine ⟨?_, ?_, ?_⟩
  · rcases hcmd : st.cmd with _ | c <;>
      cases sr <;>
        simp [launchNgrok, hcmd, resEvs, countStatus, List.countP_cons, isStatusEv]
  · intro ts hts
    obtain rfl : sr = Except.ok ts := hts
    refine ⟨?_, ?_, ?_⟩
    · rcases hcmd : st.cmd with _ | c <;> simp [launchNgrok, hcmd, resOk]
    · intro hnil
      rcases hcmd : st.cmd with _ | c <;>
        simp [launchNgrok, hcmd, resMsg, hnil, formatTunnels]
    · intro hne
      rcases hts' : ts.tunnels with _ | ⟨t, rest⟩
      · exact absurd hts' hne
      · have hpos := formatTunnels_cons_pos t rest ""
        have hcond : ¬ ((formatTunnels "" ts.tunnels).length = 0) := by
          rw [hts']
          omega
        rcases hcmd : st.cmd with _ | c <;>
          simp [launchNgrok, hcmd, resMsg, hcond, hts'] <;>
            (intro hzero; omega)
  · intro e he
    obtain rfl : sr = Except.error e := he
    refine ⟨?_, ?_, ?_⟩ <;>
      rcases hcmd : st.cmd with _ | c <;>
        simp [launchNgrok, hcmd, resOk, resMsg, resState]

theorem launch_status_query_once_witness :
    sampleLaunchEnv.startErr = none
    ∧ countStatus (resEvs (launchNgrok sampleLaunchEnv ["http", "8080"] initState)) = 1 :=
  ⟨rfl, (launch_status_query_once sampleLaunchEnv ["http", "8080"] initState rfl).1⟩

/-- C5: `shutdownNgrok` in Idle returns a failure whose message
contains "no running process" (it is exactly the failure format
applied to that text) and leaves the state unchanged; in Running it
kills and waits the process, clears the handle, and returns success,
with the wait error — a non-clean exit — only folded into the success
text, never escalated to a failure. -/
theorem shutdown_idle_fails_running_succeeds (env : ShutdownEnv) (st : PCState) :
    (st.cmd = none →
      shutdownNgrok env st = (st, [], "Failed to shutdown: " ++ "no running process", false))
    ∧ (∀ c, st.cmd = some c →
        resOk (shutdownNgrok env st) = true
        ∧ resState (shutdownNgrok env st) = { st with cmd := none }
        ∧ resEvs (shutdownNgrok env st) = [Ev.killed c.pid, Ev.waited c.pid]
        ∧ (env.waitErr = none →
            resMsg (shutdownNgrok env st) = messageShutdownSuccessfully)
        ∧ (∀ e, env.waitErr = some e →
            resMsg (shutdownNgrok env st) = "Shutdown successfully. (" ++ e ++ ")")) := by
  constructor
  · intro h
    simp [shutdownNgrok, h]
  · intro c hc
    refine ⟨?_, ?_, ?_, ?_, ?_⟩
    · simp [shutdownNgrok, hc, resOk]
    · simp [shutdownNgrok, hc, resState]
    · simp [shutdownNgrok, hc, resEvs]
    · intro hwe
      simp [shutdownNgrok, hc, resMsg, hwe]
    · intro e hwe
      simp [shutdownNgrok, hc, resMsg, hwe]

theorem shutdown_idle_fails_running_succeeds_witness :
    initState.cmd = none
    ∧ shutdownNgrok sampleShutdownEnv initState =
        (initState, [], "Failed to shutdown: " ++ "no running process", false) :=
  ⟨rfl, (shutdown_idle_fails_running_succeeds sampleShutdownEnv initState).1 rfl⟩

/-- C6 counterexample: with zero profiles configured, the reply to the
launch command is not sent "with no keyboard offered": the outbound
message descriptor still carries the persistent two-button reply
keyboard (the code always sets `reply_markup`, and only replaces it
with the inline selection menu when at least one profile exists). -/
theorem launch_no_profiles_keyboard_cex :
    effOut (processUpdate ["alice"] [] sampleUpdateEnv initState
      { fromUser := { username := some "alice", firstName := "A" },
        chat := { id := 1 }, messageID := 2, text := some "/launch" }) =
      [OutEff.chatAction 1,
       OutEff.sendMessage 1 messageNoConfiguredTunnels (Markup.replyKeyboard allKeyboards)] :=
  rfl

/-- C6 amended: for the launch text command from an authorized sender,
zero configured profiles give the `messageNoConfiguredTunnels` reply
accompanied by the persistent reply keyboard (no inline selection
keyboard); at least one profile gives the choose-one prompt whose
inline keyboard holds exactly one selectable button row per configured
profile label plus one cancel row. -/
theorem launch_menu_per_profile (ids : List String) (uname fn : String) (cid mid : Int)
    (tp : List (String × String)) (env : UpdateEnv) (st : PCState) (s : String)
    (hauth : isAvailableId ids uname = true) :
    (tp.length = 0 →
      processUpdate ids tp env st
        { fromUser := { username := some uname, firstName := fn },
          chat := { id := cid }, messageID := mid,
          text := some (commandLaunchNgrok ++ s) } =
        (st, [],
          [OutEff.chatAction cid,
           OutEff.sendMessage cid messageNoConfiguredTunnels
             (Markup.replyKeyboard allKeyboards)],
          env.sendOk))
    ∧ (tp.length > 0 →
        processUpdate ids tp env st
          { fromUser := { username := some uname, firstName := fn },
            chat := { id := cid }, messageID := mid,
            text := some (commandLaunchNgrok ++ s) } =
          (st, [],
            [OutEff.chatAction cid,
             OutEff.sendMessage cid messageWhatToLaunch
               (Markup.inlineKeyboard
                 (tp.map (fun kv => [InlineKeyboardButton.mk kv.1 (some kv.1)]) ++
                   [[InlineKeyboardButton.mk messageCancel (some commandCancel)]]))],
            env.sendOk)
          ∧ (tp.map (fun kv => [InlineKeyboardButton.mk kv.1 (some kv.1)]) ++
              [[InlineKeyboardButton.mk messageCancel (some commandCancel)]]).length
            = tp.length + 1) := by
  constructor
  · intro htp
    simp [processUpdate, hauth, strHasPre_launch_not_start, strHasPre_append_self, htp]
  · intro htp
    constructor
    · simp [processUpdate, hauth, strHasPre_launch_not_start, strHasPre_append_self, htp]
    · simp

theorem launch_menu_per_profile_witness :
    isAvailableId ["alice"] "alice" = true
    ∧ ([("web", "http 8080")] : List (String × String)).length > 0
    ∧ processUpdate ["alice"] [("web", "http 8080")] sampleUpdateEnv initState
        { fromUser := { username := some "alice", firstName := "A" },
          chat := { id := 1 }, messageID := 2,
          text := some (commandLaunchNgrok ++ "") } =
        (initState, [],
          [OutEff.chatAction 1,
           OutEff.sendMessage 1 messageWhatToLaunch
             (Markup.inlineKeyboard
               ([("web", "http 8080")].map (fun kv => [InlineKeyboardButton.mk kv.1 (some kv.1)]) ++
                 [[InlineKeyboardButton.mk messageCancel (some commandCancel)]]))],
          sampleUpdateEnv.sendOk) :=
  ⟨by decide, by decide,
    ((launch_menu_per_profile ["alice"] "alice" "A" 1 2 [("web", "http 8080")]
      sampleUpdateEnv initState "" (by decide)).2 (by decide)).1⟩

/-- C7 counterexample: a callback token that is neither the cancel
token nor a configured profile label can still be fully answered: any
token beginning with `/cancel` (here "/cancelX", with no such profile
configured) is captured by the prefix test before the lookup and
receives a callback answer and a message edit, refuting the original
"no outbound reply" claim on its stated token set. -/
theorem stale_cancel_prefixed_token_answered_cex :
    ("/cancelX" : String) ≠ commandCancel
    ∧ lookupParam [("web", "http 8080")] "/cancelX" = none
    ∧ effOut (processCallbackQuery [("web", "http 8080")] sampleCallbackEnv initState
        { id := "q1", fromUser := { username := some "alice", firstName := "A" },
          message := sampleBotMessage, data := "/cancelX" }) =
      [OutEff.chatAction 1, OutEff.answerCallback "q1" none,
       OutEff.editMessage 1 2 messageCanceled] :=
  ⟨by decide, rfl, rfl⟩

/-- C7 amended: a callback whose token is neither `/cancel`-prefixed
nor a configured profile label is dropped: beyond the typing indicator
that precedes routing, no callback answer, no message edit and no
message send occur, no lifecycle event happens, and the controller
state is unchanged (a token that IS `/cancel`-prefixed is captured by
the cancel test instead and gets the canceled reply). -/
theorem unknown_callback_dropped (tp : List (String × String)) (cenv : CallbackEnv)
    (st : PCState) (q : CallbackQuery)
    (hnc : strHasPre q.data commandCancel = false)
    (hnp : lookupParam tp q.data = none) :
    processCallbackQuery tp cenv st q =
      (st, [], [OutEff.chatAction q.message.chat.id], false) := by
  simp [processCallbackQuery, hnc, hnp]

theorem unknown_callback_dropped_witness :
    strHasPre "stale" commandCancel = false
    ∧ lookupParam [("web", "http 8080")] "stale" = none
    ∧ processCallbackQuery [("web", "http 8080")] sampleCallbackEnv initState
        { id := "q1", fromUser := { username := some "alice", firstName := "A" },
          message := sampleBotMessage, data := "stale" } =
        (initState, [], [OutEff.chatAction 1], false) :=
  ⟨by decide, by decide,
    unknown_callback_dropped [("web", "http 8080")] sampleCallbackEnv initState
      { id := "q1", fromUser := { username := some "alice", firstName := "A" },
        message := sampleBotMessage, data := "stale" } (by decide) (by decide)⟩

/-- C8: a callback carrying the cancel token performs no process
action whatever the controller state is: the state and the lifecycle
trace are untouched, and the reply answers the callback with no toast
and then edits the original message to `messageCanceled` (which clears
its inline keyboard). -/
theorem cancel_callback_no_process_action (tp : List (String × String)) (cenv : CallbackEnv)
    (st : PCState) (q : CallbackQuery) :
    processCallbackQuery tp cenv st { q with data := commandCancel } =
      (st, [],
        OutEff.chatAction q.message.chat.id ::
          (if cenv.answerOk then
            [OutEff.answerCallback q.id none,
             OutEff.editMessage q.message.chat.id q.message.messageID messageCanceled]
           else [OutEff.answerCallback q.id none]),
        cenv.answerOk && cenv.editOk) := by
  have hpre : strHasPre commandCancel commandCancel = true := by decide
  by_cases ha : cenv.answerOk <;>
    simp [processCallbackQuery, answerAndEdit, hpre, ha]

/-- C9 counterexample: a configured profile whose label begins with
`/cancel` is never launched through its button: its callback token is
captured by the cancel prefix test before the profile lookup, so
"every callback whose token names a configured profile always invokes
Launch" fails as stated — here the token names a profile, yet no
lifecycle event happens and the reply is the cancel notice. -/
theorem cancel_labeled_profile_not_launched_cex :
    lookupParam [("/cancelX", "http 80")] "/cancelX" = some "http 80"
    ∧ effEvs (processCallbackQuery [("/cancelX", "http 80")] sampleCallbackEnv initState
        { id := "q1", fromUser := { username := some "alice", firstName := "A" },
          message := sampleBotMessage, data := "/cancelX" }) = []
    ∧ effState (processCallbackQuery [("/cancelX", "http 80")] sampleCallbackEnv initState
        { id := "q1", fromUser := { username := some "alice", firstName := "A" },
          message := sampleBotMessage, data := "/cancelX" }) = initState
    ∧ effOut (processCallbackQuery [("/cancelX", "http 80")] sampleCallbackEnv initState
        { id := "q1", fromUser := { username := some "alice", firstName := "A" },
          message := sampleBotMessage, data := "/cancelX" }) =
      [OutEff.chatAction 1, OutEff.answerCallback "q1" none,
       OutEff.editMessage 1 2 messageCanceled] :=
  ⟨rfl, rfl, rfl, rfl⟩

/-- C9 amended: splitting any configured profile value on spaces gives
a non-empty parameter list, so the "No tunnel parameter" guard branch
is unreachable: every callback whose token names a configured profile
— and is not captured by the `/cancel` prefix test — invokes
`launchNgrok` with the split value (for the empty-string value, with
the single empty-string argument) and is answered with a toast. -/
theorem profile_callback_invokes_launch (tp : List (String × String)) (cenv : CallbackEnv)
    (st : PCState) (q : CallbackQuery) (p : String)
    (hnc : strHasPre q.data commandCancel = false)
    (hp : lookupParam tp q.data = some p) :
    (p.splitOn " ").length > 0
    ∧ processCallbackQuery tp cenv st q =
        (resState (launchNgrok cenv.launchEnv (p.splitOn " ") st),
         resEvs (launchNgrok cenv.launchEnv (p.splitOn " ") st),
         OutEff.chatAction q.message.chat.id ::
           (answerAndEdit cenv q (resMsg (launchNgrok cenv.launchEnv (p.splitOn " ") st)) q.data
             (resOk (launchNgrok cenv.launchEnv (p.splitOn " ") st))).1,
         (answerAndEdit cenv q (resMsg (launchNgrok cenv.launchEnv (p.splitOn " ") st)) q.data
           (resOk (launchNgrok cenv.launchEnv (p.splitOn " ") st))).2)
    ∧ Ev.command st.nextPid (p.splitOn " ") ∈ effEvs (processCallbackQuery tp cenv st q)
    ∧ (∃ toast, OutEff.answerCallback q.id (some toast) ∈
        effOut (processCallbackQuery tp cenv st q))
    ∧ (p = "" → Ev.command st.nextPid [""] ∈ effEvs (processCallbackQuery tp cenv st q)) := by
  have hsplit : (p.splitOn " ").length > 0 :=
    List.length_pos.2 (splitOn_ne_nil p " ")
  have heq : processCallbackQuery tp cenv st q =
      (resState (launchNgrok cenv.launchEnv (p.splitOn " ") st),
       resEvs (launchNgrok cenv.launchEnv (p.splitOn " ") st),
       OutEff.chatAction q.message.chat.id ::
         (answerAndEdit cenv q (resMsg (launchNgrok cenv.launchEnv (p.splitOn " ") st)) q.data
           (resOk (launchNgrok cenv.launchEnv (p.splitOn " ") st))).1,
       (answerAndEdit cenv q (resMsg (launchNgrok cenv.launchEnv (p.splitOn " ") st)) q.data
         (resOk (launchNgrok cenv.launchEnv (p.splitOn " ") st))).2) := by
    simp [processCallbackQuery, hnc, hp, hsplit]
  have hcmdmem : Ev.command st.nextPid (p.splitOn " ") ∈
      effEvs (processCallbackQuery tp cenv st q) := by
    rw [heq]
    show Ev.command st.nextPid (p.splitOn " ") ∈
      resEvs (launchNgrok cenv.launchEnv (p.splitOn " ") st)
    rw [(launch_result_shape cenv.launchEnv (p.splitOn " ") st).2]
    simp
  refine ⟨hsplit, heq, hcmdmem, ?_, ?_⟩
  · have hmsg := launch_msg_pos cenv.launchEnv (p.splitOn " ") st
    refine ⟨if resOk (launchNgrok cenv.launchEnv (p.splitOn " ") st)
      then "Launched successfully: " ++ q.data else messageLaunchFailed, ?_⟩
    rw [heq]
    show OutEff.answerCallback q.id _ ∈ OutEff.chatAction q.message.chat.id :: _
    by_cases ha : cenv.answerOk <;>
      simp [answerAndEdit, ha, hmsg]
  · intro hpe
    have hsplit0 : "".splitOn " " = [""] := by
      rw [String.splitOn, if_neg (by decide), String.splitOnAux, if_pos (by decide)]
      decide
    rw [hpe] at hcmdmem
    rw [hsplit0] at hcmdmem
    exact hcmdmem

theorem profile_callback_invokes_launch_witness :
    strHasPre "web" commandCancel = false
    ∧ lookupParam [("web", "http 8080")] "web" = some "http 8080"
    ∧ (("http 8080" : String).splitOn " ").length > 0 :=
  ⟨by decide, by decide,
    (profile_callback_invokes_launch [("web", "http 8080")] sampleCallbackEnv initState
      { id := "q1", fromUser := { username := some "alice", firstName := "A" },
        message := sampleBotMessage, data := "web" } "http 8080"
      (by decide) (by decide)).1⟩

/-- C10: command and cancel recognition is by string prefix, not
equality: any text beginning with `/launch` triggers the profile menu,
any text beginning with `/shutdown` invokes `shutdownNgrok`, and any
callback token beginning with `/cancel` takes the cancel path even
when it is not exactly the offered cancel token — in particular the
third part holds for every profile map `tp`, so a configured profile
whose label begins with `/cancel` can never be launched via its
button. -/
theorem command_matching_by_prefix :
    (∀ (uname fn : String) (rest : List String) (cid mid : Int)
        (tp : List (String × String)) (env : UpdateEnv) (st : PCState) (s : String),
      effOut (processUpdate (uname :: rest) tp env st
        { fromUser := { username := some uname, firstName := fn },
          chat := { id := cid }, messageID := mid,
          text := some (commandLaunchNgrok ++ s) }) =
        [OutEff.chatAction cid,
         OutEff.sendMessage cid
           (if tp.length > 0 then messageWhatToLaunch else messageNoConfiguredTunnels)
           (if tp.length > 0 then
              Markup.inlineKeyboard
                (tp.map (fun kv => [InlineKeyboardButton.mk kv.1 (some kv.1)]) ++
                  [[InlineKeyboardButton.mk messageCancel (some commandCancel)]])
            else Markup.replyKeyboard allKeyboards)])
    ∧ (∀ (uname fn : String) (rest : List String) (cid mid : Int)
        (tp : List (String × String)) (env : UpdateEnv) (st : PCState) (s : String),
      processUpdate (uname :: rest) tp env st
        { fromUser := { username := some uname, firstName := fn },
          chat := { id := cid }, messageID := mid,
          text := some (commandShutdownNgrok ++ s) } =
        (resState (shutdownNgrok env.shutdownEnv st),
         resEvs (shutdownNgrok env.shutdownEnv st),
         [OutEff.chatAction cid,
          OutEff.sendMessage cid (resMsg (shutdownNgrok env.shutdownEnv st))
            (Markup.replyKeyboard allKeyboards)],
         env.sendOk))
    ∧ (∀ (tp : List (String × String)) (cenv : CallbackEnv) (st : PCState)
        (q : CallbackQuery) (s : String),
      processCallbackQuery tp cenv st { q with data := commandCancel ++ s } =
        (st, [],
          OutEff.chatAction q.message.chat.id ::
            (if cenv.answerOk then
              [OutEff.answerCallback q.id none,
               OutEff.editMessage q.message.chat.id q.message.messageID messageCanceled]
             else [OutEff.answerCallback q.id none]),
          cenv.answerOk && cenv.editOk)) := by
  have hself : ∀ (u : String) (rest : List String), isAvailableId (u :: rest) u = true := by
    intro u rest
    simp [isAvailableId]
  refine ⟨?_, ?_, ?_⟩
  · intro uname fn rest cid mid tp env st s
    by_cases htp : tp.length > 0 <;>
      simp [processUpdate, hself, strHasPre_launch_not_start, strHasPre_append_self, htp,
        effOut]
  · intro uname fn rest cid mid tp env st s
    simp [processUpdate, hself, strHasPre_shutdown_not_start, strHasPre_shutdown_not_launch,
      strHasPre_append_self]
  · intro tp cenv st q s
    by_cases ha : cenv.answerOk <;>
      simp [processCallbackQuery, answerAndEdit, strHasPre_append_self, ha]
